import Mathlib

/-!
Verification of the container-assistant repository (a chat assistant managing
an in-memory list of storage containers).

The shallow embedding below translates the core logic of the source:
  * `src/types.ts`                      — data model (`Container`, `Message`, action shape);
  * `src/src/App.tsx`                   — `executeAction` (the action-executor switch) and
                                          `handleSendMessage` (the conversation-controller turn);
  * `src/src/services/geminiService.ts` — `interpretUserCommand`'s response handling
                                          (trim / JSON.parse / duck-typed cast / catch → UNKNOWN).

Modelling conventions:
  * Container ids are `Nat` (the program only ever assigns `1` or `max + 1`, and the
    seed store uses ids `1` and `2`).
  * JavaScript truthiness of the optional `containerNumber` field
    (`if (action.containerNumber)`) is `numTruthy`: false for `undefined`/`none`
    and for `0`.
  * The TypeScript `ActionType` enum is string-valued, the `switch` in
    `executeAction` dispatches on string equality, and `JSON.parse(text) as AIAction`
    performs no runtime validation; accordingly the embedded `AIAction.action`
    field is an `Option String` (`none` models an absent field), so that replies
    carrying an action name outside the seven known variants are representable,
    exactly as in the running program.
  * `Date.now()`-derived message ids are nondeterministic and irrelevant to every
    claim; embedded messages carry the id `""`.
  * Lowercasing and trimming are modelled at the character-list level
    (`lowerChars`, `strTrim`), agreeing with JavaScript's `toLowerCase()` /
    `trim()` on the ASCII strings this program manipulates.
-/

/-- `Container` from `src/types.ts`: an id and an ordered list of item labels. -/
structure Container where
  id : Nat
  items : List String
deriving Repr, DecidableEq

/-- Message sender, from `src/types.ts` (`'user' | 'ai' | 'system'`). -/
inductive Sender where
  | user
  | ai
  | system
deriving Repr, DecidableEq

/-- `Message` from `src/types.ts`. -/
structure Message where
  id : String
  sender : Sender
  text : String
  isLoading : Bool := false
deriving Repr, DecidableEq

/-- The pending camera-scan context (`pendingScannedItems` state in `App.tsx`). -/
structure PendingScan where
  containerId : Nat
  items : List String
deriving Repr, DecidableEq

/-- `AIAction` from `src/types.ts`, as it exists at runtime after
`JSON.parse(text) as AIAction` (no validation): the `action` field is a raw
optional string, not a closed enum. -/
structure AIAction where
  action : Option String
  containerNumber : Option Nat := none
  items : Option (List String) := none
  itemsToAdd : Option (List String) := none
  itemsToRemove : Option (List String) := none
deriving Repr, DecidableEq

/-- The string values of the `ActionType` enum in `src/types.ts`. -/
def knownActionNames : List String :=
  ["UPDATE_ITEMS", "LIST_ITEMS", "LIST_ALL_CONTAINERS", "CLEAR_CONTAINER",
   "CREATE_CONTAINER", "DELETE_CONTAINER", "UNKNOWN"]

/-- JavaScript truthiness of an optional number (`if (action.containerNumber)`):
false for `undefined` and for `0`. -/
def numTruthy : Option Nat → Bool
  | none => false
  | some n => n != 0

/-- Truthiness of `xs && xs.length > 0` on an optional array. -/
def itemsNonempty : Option (List String) → Bool
  | none => false
  | some l => l.length > 0

/-- `Array.prototype.join(', ')`. -/
def joinComma (l : List String) : String :=
  String.intercalate ", " l

/-- ASCII lowercasing of one character, as `toLowerCase()` acts on ASCII. -/
def charLower (c : Char) : Char :=
  if 65 ≤ c.toNat ∧ c.toNat ≤ 90 then Char.ofNat (c.toNat + 32) else c

/-- `s.toLowerCase()` at the character-list level. -/
def lowerChars (l : List Char) : List Char :=
  l.map charLower

/-- Character-list prefix test. -/
def chPrefix : List Char → List Char → Bool
  | [], _ => true
  | _ :: _, [] => false
  | a :: as, b :: bs => a == b && chPrefix as bs

/-- Character-list contiguous-substring test; true for the empty pattern,
matching `String.prototype.includes`. -/
def chInfix (pat : List Char) : List Char → Bool
  | [] => pat.isEmpty
  | c :: cs => chPrefix pat (c :: cs) || chInfix pat cs

/-- `s.includes(pat)`. -/
def strIncludes (s pat : String) : Bool :=
  chInfix pat.data s.data

/-- `s.trim()`: strip leading and trailing whitespace. -/
def jsWs (c : Char) : Bool :=
  c == ' ' || c == '\t' || c == '\n' || c == '\r'

/-- `String.prototype.trim`, at the character-list level. -/
def strTrim (s : String) : String :=
  String.mk (((s.data.dropWhile jsWs).reverse.dropWhile jsWs).reverse)

/-- Insertion into a `Set` walked left to right: an element already seen is
skipped, a new element is kept and recorded. -/
def jsSetDedupAux : List String → List String → List String
  | _, [] => []
  | seen, x :: xs =>
    if x ∈ seen then jsSetDedupAux seen xs else x :: jsSetDedupAux (x :: seen) xs

/-- `[...new Set(l)]`: de-duplication by exact equality keeping the first
occurrence of each element, preserving first-occurrence order. -/
def jsSetDedup (l : List String) : List String :=
  jsSetDedupAux [] l

/-- `Math.max(...containers.map(c => c.id))`; the source only evaluates it on a
non-empty store, where this fold equals the true maximum. -/
def maxId (containers : List Container) : Nat :=
  (containers.map (fun c => c.id)).foldl max 0

/-- An existing item is removed when it case-insensitively contains some removal
term: `itemsToRemove.some(removeItem => item.toLowerCase().includes(removeItem.toLowerCase()))`
(`App.tsx` line 62). -/
def removalMatches (terms : List String) (item : String) : Bool :=
  terms.any (fun removeItem => chInfix (lowerChars removeItem.data) (lowerChars item.data))

/-- `executeAction` from `src/src/App.tsx` (lines 48–145).  The source computes a
response string and applies store mutations through `setContainers`; the
embedding returns the post-state of the store paired with the response.  The
final branch is the `switch` falling through with the initial
`aiResponse = "Sorry, I couldn't perform that action."` untouched. -/
def executeAction (action : AIAction) (containers : List Container) :
    List Container × String :=
  if action.action = some "UPDATE_ITEMS" then
    if numTruthy action.containerNumber then
      let n := action.containerNumber.getD 0
      match containers.find? (fun c => c.id == n) with
      | some _ =>
        let itemsToAdd := action.itemsToAdd
        let itemsToRemove := action.itemsToRemove
        let updated := containers.map (fun c =>
          if c.id == n then
            let afterRemove :=
              if itemsNonempty itemsToRemove then
                c.items.filter (fun item => !(removalMatches (itemsToRemove.getD []) item))
              else c.items
            let afterAdd :=
              if itemsNonempty itemsToAdd then
                jsSetDedup (afterRemove ++ itemsToAdd.getD [])
              else afterRemove
            { c with items := afterAdd }
          else c)
        let addedText :=
          if itemsNonempty itemsToAdd then "added \"" ++ joinComma (itemsToAdd.getD []) ++ "\"" else ""
        let removedText :=
          if itemsNonempty itemsToRemove then "removed \"" ++ joinComma (itemsToRemove.getD []) ++ "\"" else ""
        let resp :=
          if addedText != "" && removedText != "" then
            s!"OK, I've {addedText} to and {removedText} from container {n}."
          else if addedText != "" then
            s!"OK, I've {addedText} to container {n}."
          else if removedText != "" then
            s!"OK, I've {removedText} from container {n}."
          else
            s!"OK, no changes were made to container {n}."
        (updated, resp)
      | none => (containers, s!"Sorry, I couldn't find container {n}.")
    else (containers, "Please specify which container to update.")
  else if action.action = some "LIST_ITEMS" then
    if numTruthy action.containerNumber then
      let n := action.containerNumber.getD 0
      match containers.find? (fun c => c.id == n) with
      | some container =>
        let i := container.id
        let contents :=
          if container.items.length > 0 then joinComma container.items else "It's empty"
        (containers, s!"Container {i} contains: {contents}.")
      | none => (containers, s!"Sorry, I couldn't find container {n}.")
    else (containers, "Sorry, I couldn't perform that action.")
  else if action.action = some "LIST_ALL_CONTAINERS" then
    if containers.length > 0 then
      (containers,
        "Here's what's in all your containers:\n\n" ++
          String.intercalate "\n"
            (containers.map (fun c => s!"Container #{c.id}: {joinComma c.items}")))
    else (containers, "You don't have any containers yet.")
  else if action.action = some "CLEAR_CONTAINER" then
    if numTruthy action.containerNumber then
      let n := action.containerNumber.getD 0
      (containers.map (fun c => if c.id == n then { c with items := [] } else c),
        s!"Container {n} has been cleared.")
    else (containers, "Sorry, I couldn't perform that action.")
  else if action.action = some "CREATE_CONTAINER" then
    let newContainerId := if containers.length > 0 then maxId containers + 1 else 1
    let newItems := action.items.getD []
    (containers ++ [{ id := newContainerId, items := newItems }],
      s!"I've created container {newContainerId}" ++
        (if itemsNonempty action.items then " and added \"" ++ joinComma newItems ++ "\"" else "") ++ ".")
  else if action.action = some "DELETE_CONTAINER" then
    if numTruthy action.containerNumber then
      let n := action.containerNumber.getD 0
      if containers.any (fun c => c.id == n) then
        (containers.filter (fun c => !(c.id == n)), s!"OK, I have deleted container #{n}.")
      else
        (containers, s!"Sorry, I couldn't find container #{n} to delete.")
    else (containers, "Please specify which container you'd like to delete.")
  else if action.action = some "UNKNOWN" then
    (containers, "I'm sorry, I didn't quite understand that. Could you please rephrase?")
  else
    (containers, "Sorry, I couldn't perform that action.")

/-! ### The LLM reply pipeline of `interpretUserCommand`

`geminiService.ts` lines 103–110: the reply text is trimmed, fed to
`JSON.parse`, and the result is returned after a validation-free
`as AIAction` cast; any exception (network failure at the `await`, or
`JSON.parse` throwing on malformed text) is caught and mapped to
`{ action: ActionType.UNKNOWN }`.

`Json`/`jsonParse` model ECMA `JSON.parse` on the fragment this protocol
uses: objects, arrays, strings (with the common escapes), integer numbers
(the response schema declares `Type.INTEGER`), booleans and null. -/

/-- A parsed JSON value. -/
inductive Json where
  | null : Json
  | bool : Bool → Json
  | num : Int → Json
  | str : String → Json
  | arr : List Json → Json
  | obj : List (String × Json) → Json
deriving Repr

/-- JSON whitespace. -/
def jsonWs (c : Char) : Bool :=
  c == ' ' || c == '\t' || c == '\n' || c == '\r'

/-- Skip leading JSON whitespace. -/
def skipWs (l : List Char) : List Char :=
  l.dropWhile jsonWs

/-- Parse the body of a JSON string literal (the opening quote already
consumed), returning the decoded characters and the remaining input. -/
def parseStrChars : List Char → Option (List Char × List Char)
  | [] => none
  | '"' :: rest => some ([], rest)
  | '\\' :: e :: rest =>
    let esc : Option Char :=
      if e = '"' then some '"'
      else if e = '\\' then some '\\'
      else if e = '/' then some '/'
      else if e = 'n' then some '\n'
      else if e = 't' then some '\t'
      else if e = 'r' then some '\r'
      else none
    match esc, parseStrChars rest with
    | some c, some (cs, r) => some (c :: cs, r)
    | _, _ => none
  | c :: rest =>
    if c = '\\' then none
    else
      match parseStrChars rest with
      | some (cs, r) => some (c :: cs, r)
      | none => none

/-- Decimal digits to a number. -/
def digitsToNat (ds : List Char) : Nat :=
  ds.foldl (fun n c => n * 10 + (c.toNat - 48)) 0

/-- Parse an (optionally negated) integer literal. -/
def parseNumber (l : List Char) : Option (Int × List Char) :=
  match l with
  | '-' :: rest =>
    let p := rest.span Char.isDigit
    if p.1.isEmpty then none else some (-(digitsToNat p.1 : Int), p.2)
  | _ =>
    let p := l.span Char.isDigit
    if p.1.isEmpty then none else some ((digitsToNat p.1 : Int), p.2)

mutual

/-- Parse one JSON value (fuelled; `jsonParse` supplies ample fuel). -/
def parseVal : Nat → List Char → Option (Json × List Char)
  | 0, _ => none
  | fuel + 1, input =>
    match skipWs input with
    | [] => none
    | '"' :: rest => (parseStrChars rest).map (fun p => (Json.str (String.mk p.1), p.2))
    | '\x7b' :: rest =>
      match skipWs rest with
      | '\x7d' :: r => some (Json.obj [], r)
      | other => (parseMembers fuel other).map (fun p => (Json.obj p.1, p.2))
    | '[' :: rest =>
      match skipWs rest with
      | ']' :: r => some (Json.arr [], r)
      | other => (parseElems fuel other).map (fun p => (Json.arr p.1, p.2))
    | 't' :: 'r' :: 'u' :: 'e' :: rest => some (Json.bool true, rest)
    | 'f' :: 'a' :: 'l' :: 's' :: 'e' :: rest => some (Json.bool false, rest)
    | 'n' :: 'u' :: 'l' :: 'l' :: rest => some (Json.null, rest)
    | other => (parseNumber other).map (fun p => (Json.num p.1, p.2))

/-- Parse the comma-separated elements of a non-empty array, up to `]`. -/
def parseElems : Nat → List Char → Option (List Json × List Char)
  | 0, _ => none
  | fuel + 1, input =>
    match parseVal fuel input with
    | none => none
    | some (v, rest) =>
      match skipWs rest with
      | ',' :: r => (parseElems fuel r).map (fun p => (v :: p.1, p.2))
      | ']' :: r => some ([v], r)
      | _ => none

/-- Parse the members of a non-empty object, up to the closing brace. -/
def parseMembers : Nat → List Char → Option (List (String × Json) × List Char)
  | 0, _ => none
  | fuel + 1, input =>
    match skipWs input with
    | '"' :: rest =>
      match parseStrChars rest with
      | none => none
      | some (key, r1) =>
        match skipWs r1 with
        | ':' :: r2 =>
          match parseVal fuel r2 with
          | none => none
          | some (v, r3) =>
            match skipWs r3 with
            | ',' :: r4 => (parseMembers fuel r4).map (fun p => ((String.mk key, v) :: p.1, p.2))
            | '\x7d' :: r4 => some ([(String.mk key, v)], r4)
            | _ => none
        | _ => none
    | _ => none

end

/-- `JSON.parse` on the protocol fragment: parse one value and demand only
trailing whitespace after it. -/
def jsonParse (s : String) : Option Json :=
  match parseVal (s.length + 1) s.data with
  | some (v, rest) => if skipWs rest = [] then some v else none
  | none => none

/-- Property access `obj[key]` on a parsed JSON value: `none` on a non-object
or an absent key; the last occurrence of a duplicated key wins, as in
`JSON.parse`. -/
def jGet (j : Json) (key : String) : Option Json :=
  match j with
  | Json.obj members => members.foldl (fun acc p => if p.1 = key then some p.2 else acc) none
  | _ => none

/-- Read a JSON value as a string field. -/
def jStr : Option Json → Option String
  | some (Json.str s) => some s
  | _ => none

/-- Read a JSON value as a non-negative integer field. -/
def jNat : Option Json → Option Nat
  | some (Json.num n) => n.toNat'
  | _ => none

/-- Read a JSON value as a string-array field. -/
def jStrList : Option Json → Option (List String)
  | some (Json.arr vs) =>
    vs.mapM (fun v => match v with | Json.str s => some s | _ => none)
  | _ => none

/-- The validation-free `JSON.parse(jsonText) as AIAction` cast: fields are
read off the parsed value exactly as dynamic property access would produce
them.  A field whose JSON value does not have the schema's type is modelled as
absent (no claim depends on ill-typed fields; an ill-typed `action` field and
an absent one both land in the `switch` default of `executeAction`, as in the
source). -/
def castAIAction (j : Json) : AIAction :=
  { action := jStr (jGet j "action")
    containerNumber := jNat (jGet j "containerNumber")
    items := jStrList (jGet j "items")
    itemsToAdd := jStrList (jGet j "itemsToAdd")
    itemsToRemove := jStrList (jGet j "itemsToRemove") }

/-- The reply handling of `interpretUserCommand` (`geminiService.ts` lines
103–110).  The prompt-construction part of the function only affects the
external LLM call; its outcome is the `reply` argument here: `Except.error ()`
is a rejected `await` (network/transport failure) and `Except.ok text` a
resolved reply body.  The `catch` maps every failure, including `JSON.parse`
throwing on malformed text, to `{ action: ActionType.UNKNOWN }`. -/
def interpretUserCommand (reply : Except Unit String) : AIAction :=
  match reply with
  | Except.error _ => { action := some "UNKNOWN" }
  | Except.ok text =>
    match jsonParse (strTrim text) with
    | none => { action := some "UNKNOWN" }
    | some j => castAIAction j

/-! ### The conversation-controller turn -/

/-- The component state of `App.tsx` that `handleSendMessage` reads and
writes. -/
structure AppState where
  containers : List Container
  messages : List Message
  isProcessing : Bool
  pendingScannedItems : Option PendingScan
deriving Repr, DecidableEq

/-- The seed store (`App.tsx` lines 11–14). -/
def initialContainers : List Container :=
  [{ id := 1, items := ["Christmas Decorations", "Wreaths", "Tree Stand"] },
   { id := 2, items := ["Camping Gear", "Tent", "Sleeping Bags"] }]

/-- One turn of `handleSendMessage` (`App.tsx` lines 147–187).

`turn` is the outcome of the awaited interpretation, the single suspension
point of the turn: `none` models an unexpected exception raised there (the
`catch` branch, lines 174–182), and `some reply` a resolved LLM transport
result handed to `interpretUserCommand`.  Everything after the guard is one
atomic state transition; the `finally` (lines 183–186) leaves
`isProcessing = false` on every completed turn. -/
def handleSendMessage (messageText : String) (turn : Option (Except Unit String))
    (st : AppState) : AppState :=
  if strTrim messageText = "" || st.isProcessing then st
  else
    let userMessage : Message := { id := "", sender := Sender.user, text := messageText }
    let thinkingMessage : Message := { id := "", sender := Sender.ai, text := "...", isLoading := true }
    let msgs := st.messages ++ [userMessage, thinkingMessage]
    match turn with
    | some reply =>
      let action := interpretUserCommand reply
      let result := executeAction action st.containers
      { containers := result.1
        messages := msgs.dropLast ++ [{ id := "", sender := Sender.ai, text := result.2 }]
        isProcessing := false
        pendingScannedItems := none }
    | none =>
      { containers := st.containers
        messages := msgs.dropLast ++
          [{ id := "", sender := Sender.system, text := "An error occurred. Please try again." }]
        isProcessing := false
        pendingScannedItems := none }

example :
    (executeAction { action := some "LIST_ALL_CONTAINERS" } []).2 =
      "You don't have any containers yet." := by decide

example :
    (executeAction { action := some "CREATE_CONTAINER", items := some ["X"] }
        [⟨1, ["A"]⟩, ⟨2, []⟩]).1 = [⟨1, ["A"]⟩, ⟨2, []⟩, ⟨3, ["X"]⟩] := by decide

example :
    (executeAction { action := some "UPDATE_ITEMS", containerNumber := some 2,
                     itemsToRemove := some ["tent"] }
        [⟨2, ["Tent Stand", "Chairs"]⟩]).1 = [⟨2, ["Chairs"]⟩] := by decide

example :
    jsonParse "\x7b\"action\": \"TELEPORT\"\x7d" =
      some (Json.obj [("action", Json.str "TELEPORT")]) := rfl

example :
    interpretUserCommand (Except.ok " \x7b\"action\": \"CLEAR_CONTAINER\", \"containerNumber\": 3\x7d ") =
      { action := some "CLEAR_CONTAINER", containerNumber := some 3 } := rfl

example : interpretUserCommand (Except.ok "not json at all") = { action := some "UNKNOWN" } := rfl

example :
    jsonParse "[1, -2, true, null, \"x\"]" =
      some (Json.arr [Json.num 1, Json.num (-2), Json.bool true, Json.null, Json.str "x"]) := rfl

/-! ### Helper lemmas -/

/-- The state component of one `executeAction` call. -/
def execState (a : AIAction) (cs : List Container) : List Container :=
  (executeAction a cs).1

/-- The store after a sequence of executed actions. -/
def execSeq (actions : List AIAction) (cs : List Container) : List Container :=
  actions.foldl (fun s a => execState a s) cs

theorem init_le_foldl_max (l : List Nat) (a : Nat) : a ≤ l.foldl max a := by
  induction l generalizing a with
  | nil => exact le_rfl
  | cons b bs ih => exact le_trans (le_max_left a b) (ih (max a b))

theorem mem_le_foldl_max {l : List Nat} {x : Nat} (hx : x ∈ l) (a : Nat) :
    x ≤ l.foldl max a := by
  induction l generalizing a with
  | nil => cases hx
  | cons b bs ih =>
    rw [List.foldl_cons]
    rcases List.mem_cons.mp hx with h | h
    · subst h
      exact le_trans (le_max_right a x) (init_le_foldl_max bs _)
    · exact ih h _

theorem id_le_maxId {cs : List Container} {c : Container} (hc : c ∈ cs) :
    c.id ≤ maxId cs :=
  mem_le_foldl_max (List.mem_map_of_mem _ hc) 0

theorem map_congr_mem {α β : Type} {f g : α → β} {l : List α}
    (h : ∀ x ∈ l, f x = g x) : l.map f = l.map g := by
  induction l with
  | nil => rfl
  | cons x xs ih =>
    rw [List.map_cons, List.map_cons, h x (List.mem_cons_self x xs),
      ih (fun y hy => h y (List.mem_cons_of_mem _ hy))]

theorem map_eq_self_mem {α : Type} {f : α → α} {l : List α}
    (h : ∀ x ∈ l, f x = x) : l.map f = l := by
  induction l with
  | nil => rfl
  | cons x xs ih =>
    rw [List.map_cons, h x (List.mem_cons_self x xs),
      ih (fun y hy => h y (List.mem_cons_of_mem _ hy))]

theorem find?_append_none {α : Type} {p : α → Bool} {l₁ l₂ : List α}
    (h : l₁.find? p = none) : (l₁ ++ l₂).find? p = l₂.find? p := by
  rw [List.find?_append, h, Option.none_or]

/-- Every branch of `executeAction` leaves the store either rewritten through an
id-preserving per-container function, or a sublist of itself (deletion and the
untouched branches), or extended with the freshly numbered container. -/
theorem execState_shape (a : AIAction) (cs : List Container) :
    (∃ f : Container → Container, (∀ c, (f c).id = c.id) ∧ execState a cs = cs.map f) ∨
    List.Sublist (execState a cs) cs ∨
    execState a cs =
      cs ++ [{ id := if cs.length > 0 then maxId cs + 1 else 1,
               items := a.items.getD [] }] := by
  obtain ⟨r, hr⟩ : ∃ r, r = execState a cs := ⟨_, rfl⟩
  rw [← hr]
  simp only [execState, executeAction] at hr
  repeat' split at hr
  all_goals subst hr
  all_goals
    first
    | exact Or.inr (Or.inl (List.Sublist.refl _))
    | exact Or.inr (Or.inl (List.filter_sublist _))
    | exact Or.inr (Or.inr rfl)
    | exact Or.inr (Or.inr (by rw [if_pos (by assumption)]))
    | exact Or.inr (Or.inr (by rw [if_neg (by assumption)]))
    | (refine Or.inl ⟨_, ?_, rfl⟩
       intro c
       split <;> rfl)

theorem nodup_ids_execState (a : AIAction) (cs : List Container)
    (h : (cs.map (fun c => c.id)).Nodup) :
    ((execState a cs).map (fun c => c.id)).Nodup := by
  rcases execState_shape a cs with ⟨f, hf, heq⟩ | hsub | heq
  · rw [heq, List.map_map]
    have hfun : ((fun c => c.id) ∘ f) = fun c : Container => c.id :=
      funext fun c => hf c
    rw [hfun]
    exact h
  · exact h.sublist (hsub.map _)
  · rw [heq, List.map_append]
    refine h.append (List.nodup_singleton _) (List.disjoint_singleton.mpr ?_)
    intro hmem
    rcases List.mem_map.mp hmem with ⟨c, hc, hid⟩
    have hle := id_le_maxId hc
    have hpos : 0 < cs.length := List.length_pos.mpr (List.ne_nil_of_mem hc)
    rw [hid] at hle
    simp only [List.map_cons] at *
    rw [if_pos hpos] at hle
    omega

theorem nodup_ids_execSeq : ∀ (actions : List AIAction) (cs : List Container),
    (cs.map (fun c => c.id)).Nodup → ((execSeq actions cs).map (fun c => c.id)).Nodup := by
  intro actions
  induction actions with
  | nil => intro cs h; exact h
  | cons a as ih =>
    intro cs h
    simp only [execSeq, List.foldl_cons] at *
    exact ih (execState a cs) (nodup_ids_execState a cs h)

/-- The `CREATE_CONTAINER` branch of `executeAction`, state component. -/
theorem exec_create_state (l : Option (List String)) (cs : List Container) :
    (executeAction { action := some "CREATE_CONTAINER", items := l } cs).1 =
      cs ++ [{ id := if cs.length > 0 then maxId cs + 1 else 1, items := l.getD [] }] := rfl

theorem dropLast_append_two {α : Type} (l : List α) (a b : α) :
    (l ++ [a, b]).dropLast = l ++ [a] := by
  rw [show l ++ [a, b] = (l ++ [a]) ++ [b] by simp, List.dropLast_concat]

/-! ### Claims -/

/-- C2: `CREATE_CONTAINER` assigns the new container the id `max + 1` over the
current store (`1` when the store is empty), and from a store whose ids are
duplicate-free, any sequence of executed actions — in particular any sequence
of `CREATE_CONTAINER` and `DELETE_CONTAINER` — keeps the id set
duplicate-free. -/
theorem create_assigns_max_succ_and_ids_nodup (cs : List Container)
    (l : Option (List String)) (actions : List AIAction)
    (h : (cs.map (fun c => c.id)).Nodup) :
    (executeAction { action := some "CREATE_CONTAINER", items := l } cs).1 =
      cs ++ [{ id := if cs.length > 0 then maxId cs + 1 else 1, items := l.getD [] }] ∧
    ((execSeq actions cs).map (fun c => c.id)).Nodup :=
  ⟨exec_create_state l cs, nodup_ids_execSeq actions cs h⟩

theorem create_assigns_max_succ_and_ids_nodup_witness :
    (initialContainers.map (fun c => c.id)).Nodup ∧
    ((executeAction { action := some "CREATE_CONTAINER", items := some ["X"] }
        initialContainers).1 =
      initialContainers ++
        [{ id := if initialContainers.length > 0 then maxId initialContainers + 1 else 1,
           items := (some ["X"]).getD [] }] ∧
     ((execSeq [{ action := some "CREATE_CONTAINER", items := some ["X"] },
                { action := some "DELETE_CONTAINER", containerNumber := some 1 }]
          initialContainers).map (fun c => c.id)).Nodup) :=
  ⟨by decide,
   create_assigns_max_succ_and_ids_nodup initialContainers (some ["X"])
     [{ action := some "CREATE_CONTAINER", items := some ["X"] },
      { action := some "DELETE_CONTAINER", containerNumber := some 1 }] (by decide)⟩

/-- C7: while a turn is in flight (`isProcessing` is set), a further
`handleSendMessage` invocation is a no-op: the transcript, the container
store and the pending scan are returned unchanged, and no interpretation or
execution is performed; each completed turn ends with `isProcessing = false`,
so the sequential turn model never has two turns in flight. -/
theorem send_while_processing_noop (text : String) (turn : Option (Except Unit String))
    (st : AppState) (h : st.isProcessing = true) :
    handleSendMessage text turn st = st := by
  unfold handleSendMessage
  rw [h]
  simp

theorem send_while_processing_noop_witness :
    handleSendMessage "delete container 2" none
      { containers := initialContainers, messages := [], isProcessing := true,
        pendingScannedItems := none } =
      { containers := initialContainers, messages := [], isProcessing := true,
        pendingScannedItems := none } :=
  send_while_processing_noop "delete container 2" none _ rfl

/-- C6: every turn that passes the entry guard (non-blank command, no turn in
flight) ends with the pending scan cleared, whatever the outcome — a reply
that parses, a reply that fails to parse, or an exception. -/
theorem pending_scan_consumed (text : String) (turn : Option (Except Unit String))
    (st : AppState) (htext : strTrim text ≠ "") (hproc : st.isProcessing = false) :
    (handleSendMessage text turn st).pendingScannedItems = none := by
  unfold handleSendMessage
  rw [hproc, if_neg (by simp [htext])]
  cases turn <;> rfl

theorem pending_scan_consumed_witness :
    (handleSendMessage "add the tent" (some (Except.error ()))
      { containers := initialContainers, messages := [], isProcessing := false,
        pendingScannedItems := some { containerId := 1, items := ["Tent"] } }).pendingScannedItems =
      none :=
  pending_scan_consumed "add the tent" (some (Except.error ())) _ (by decide) rfl

/-- C5: when the awaited interpretation raises, the catch branch of
`handleSendMessage` leaves the container store exactly as before the turn (no
mutation has been applied), clears the pending scan, and surfaces the failure
as a system-sender error message replacing the loading placeholder in the
transcript. -/
theorem exception_leaves_store_intact (text : String) (st : AppState)
    (htext : strTrim text ≠ "") (hproc : st.isProcessing = false) :
    handleSendMessage text none st =
      { containers := st.containers,
        messages := st.messages ++
          [{ id := "", sender := Sender.user, text := text },
           { id := "", sender := Sender.system, text := "An error occurred. Please try again." }],
        isProcessing := false,
        pendingScannedItems := none } := by
  unfold handleSendMessage
  rw [hproc, if_neg (by simp [htext])]
  simp [dropLast_append_two]

theorem exception_leaves_store_intact_witness :
    handleSendMessage "clear container 2" none
      { containers := initialContainers, messages := [], isProcessing := false,
        pendingScannedItems := some { containerId := 2, items := ["Lamp"] } } =
      { containers := initialContainers,
        messages := [{ id := "", sender := Sender.user, text := "clear container 2" },
                     { id := "", sender := Sender.system,
                       text := "An error occurred. Please try again." }],
        isProcessing := false, pendingScannedItems := none } := by
  have h := exception_leaves_store_intact "clear container 2"
    { containers := initialContainers, messages := [], isProcessing := false,
      pendingScannedItems := some { containerId := 2, items := ["Lamp"] } } (by decide) rfl
  simpa using h

theorem exec_clear_step (n : Nat) (cs : List Container) (hn : n ≠ 0) :
    executeAction { action := some "CLEAR_CONTAINER", containerNumber := some n } cs =
      (cs.map (fun c => if c.id == n then { c with items := [] } else c),
        s!"Container {n} has been cleared.") := by
  have hb : numTruthy (some n) = true := by simp [numTruthy, hn]
  simp only [executeAction, Option.some.injEq, String.reduceEq, reduceIte, hb, if_true,
    Option.getD_some]

theorem exec_update_notfound (n : Nat) (toAdd toRemove : Option (List String))
    (cs : List Container) (hn : n ≠ 0) (hfind : cs.find? (fun c => c.id == n) = none) :
    executeAction
      { action := some "UPDATE_ITEMS", containerNumber := some n,
        itemsToAdd := toAdd, itemsToRemove := toRemove } cs =
      (cs, s!"Sorry, I couldn't find container {n}.") := by
  have hb : numTruthy (some n) = true := by simp [numTruthy, hn]
  simp only [executeAction, Option.some.injEq, String.reduceEq, reduceIte, hb, if_true,
    Option.getD_some, hfind]

theorem exec_list_items_notfound (n : Nat) (cs : List Container) (hn : n ≠ 0)
    (hfind : cs.find? (fun c => c.id == n) = none) :
    executeAction { action := some "LIST_ITEMS", containerNumber := some n } cs =
      (cs, s!"Sorry, I couldn't find container {n}.") := by
  have hb : numTruthy (some n) = true := by simp [numTruthy, hn]
  simp only [executeAction, Option.some.injEq, String.reduceEq, reduceIte, hb, if_true,
    Option.getD_some, hfind]

theorem exec_delete_notfound (n : Nat) (cs : List Container) (hn : n ≠ 0)
    (hany : (cs.any fun c => c.id == n) = false) :
    executeAction { action := some "DELETE_CONTAINER", containerNumber := some n } cs =
      (cs, s!"Sorry, I couldn't find container #{n} to delete.") := by
  have hb : numTruthy (some n) = true := by simp [numTruthy, hn]
  simp only [executeAction, Option.some.injEq, String.reduceEq, reduceIte, hb, if_true,
    Option.getD_some, hany, Bool.false_eq_true, if_false]

theorem exec_update_found_state (n : Nat) (toAdd toRemove : Option (List String))
    (cs : List Container) (hn : n ≠ 0) (hfind : (cs.find? (fun c => c.id == n)).isSome) :
    (executeAction
      { action := some "UPDATE_ITEMS", containerNumber := some n,
        itemsToAdd := toAdd, itemsToRemove := toRemove } cs).1 =
      cs.map (fun c =>
        if c.id == n then
          { c with items :=
              if itemsNonempty toAdd then
                jsSetDedup ((if itemsNonempty toRemove then
                    c.items.filter (fun item => !(removalMatches (toRemove.getD []) item))
                  else c.items) ++ toAdd.getD [])
              else
                if itemsNonempty toRemove then
                  c.items.filter (fun item => !(removalMatches (toRemove.getD []) item))
                else c.items }
        else c) := by
  obtain ⟨c₀, hc₀⟩ := Option.isSome_iff_exists.mp hfind
  have hb : numTruthy (some n) = true := by simp [numTruthy, hn]
  simp only [executeAction, Option.some.injEq, String.reduceEq, reduceIte, hb, if_true,
    Option.getD_some, hc₀]

theorem exec_list_items_found (n : Nat) (c : Container) (cs : List Container) (hn : n ≠ 0)
    (hfind : cs.find? (fun c' => c'.id == n) = some c) :
    executeAction { action := some "LIST_ITEMS", containerNumber := some n } cs =
      (cs, "Container " ++ toString c.id ++ " contains: " ++
        (if c.items.length > 0 then joinComma c.items else "It's empty") ++ ".") := by
  have hb : numTruthy (some n) = true := by simp [numTruthy, hn]
  simp only [executeAction, Option.some.injEq, String.reduceEq, reduceIte, hb, if_true,
    Option.getD_some, hfind]
  rfl

/-- C10: executing `CLEAR_CONTAINER` with a container number absent from the
store leaves every container unchanged yet still returns the success
confirmation "Container N has been cleared." — there is no existence check —
while `UPDATE_ITEMS`, `LIST_ITEMS` and `DELETE_CONTAINER` on the same absent
number report a couldn't-find response. -/
theorem clear_absent_container_confirms (cs : List Container) (n : Nat) (hn : n ≠ 0)
    (habs : ∀ c ∈ cs, c.id ≠ n) :
    executeAction { action := some "CLEAR_CONTAINER", containerNumber := some n } cs =
      (cs, s!"Container {n} has been cleared.") ∧
    (executeAction
      { action := some "UPDATE_ITEMS", containerNumber := some n,
        itemsToAdd := some ["A"] } cs).2 = s!"Sorry, I couldn't find container {n}." ∧
    (executeAction { action := some "LIST_ITEMS", containerNumber := some n } cs).2 =
      s!"Sorry, I couldn't find container {n}." ∧
    (executeAction { action := some "DELETE_CONTAINER", containerNumber := some n } cs).2 =
      s!"Sorry, I couldn't find container #{n} to delete." := by
  have hfind : cs.find? (fun c => c.id == n) = none :=
    List.find?_eq_none.mpr (fun c hc => by simp [habs c hc])
  have hany : (cs.any fun c => c.id == n) = false := by
    rw [List.any_eq_false]
    intro c hc
    simp [habs c hc]
  refine ⟨?_, ?_, ?_, ?_⟩
  · rw [exec_clear_step n cs hn]
    have hmap : cs.map (fun c => if c.id == n then { c with items := ([] : List String) } else c) = cs :=
      map_eq_self_mem (fun c hc => by simp [habs c hc])
    rw [hmap]
  · rw [exec_update_notfound n (some ["A"]) none cs hn hfind]
  · rw [exec_list_items_notfound n cs hn hfind]
  · rw [exec_delete_notfound n cs hn hany]

theorem clear_absent_container_confirms_witness :
    (∀ c ∈ initialContainers, c.id ≠ 5) ∧
    (executeAction { action := some "CLEAR_CONTAINER", containerNumber := some 5 }
        initialContainers =
      (initialContainers, "Container 5 has been cleared.") ∧
    (executeAction
      { action := some "UPDATE_ITEMS", containerNumber := some 5,
        itemsToAdd := some ["A"] } initialContainers).2 =
      "Sorry, I couldn't find container 5." ∧
    (executeAction { action := some "LIST_ITEMS", containerNumber := some 5 }
        initialContainers).2 = "Sorry, I couldn't find container 5." ∧
    (executeAction { action := some "DELETE_CONTAINER", containerNumber := some 5 }
        initialContainers).2 = "Sorry, I couldn't find container #5 to delete.") :=
  ⟨by decide,
   clear_absent_container_confirms initialContainers 5 (by decide) (by decide)⟩

/-- C8: `LIST_ALL_CONTAINERS` on the empty store returns exactly
"You don't have any containers yet."; on the store `[{1, ["A", "B"]}]` the
returned string contains "Container #1: A, B". -/
theorem list_all_empty_and_contents :
    (executeAction { action := some "LIST_ALL_CONTAINERS" } []).2 =
      "You don't have any containers yet." ∧
    strIncludes (executeAction { action := some "LIST_ALL_CONTAINERS" }
        [{ id := 1, items := ["A", "B"] }]).2 "Container #1: A, B" = true := by
  constructor
  · rfl
  · decide

/-- C1 (amended): a reply whose `await` raises or whose body `JSON.parse`
rejects yields the `UNKNOWN` action, and executing it produces the fixed
didn't-understand response; but the claim's further case — valid JSON whose
action name is not one of the seven variants — is returned without validation
(see the counterexample), so that case falls to the `switch` default response
instead.  In every case the pipeline is a total function: no exception
escapes. -/
theorem malformed_reply_yields_unknown (reply : Except Unit String) (cs : List Container)
    (h : ∀ s, reply = Except.ok s → jsonParse (strTrim s) = none) :
    interpretUserCommand reply = { action := some "UNKNOWN" } ∧
    (executeAction (interpretUserCommand reply) cs).2 =
      "I'm sorry, I didn't quite understand that. Could you please rephrase?" := by
  have hu : interpretUserCommand reply = { action := some "UNKNOWN" } := by
    cases reply with
    | error e => rfl
    | ok s =>
      have hs := h s rfl
      simp only [interpretUserCommand, hs]
  exact ⟨hu, by rw [hu]; rfl⟩

theorem malformed_reply_yields_unknown_witness :
    interpretUserCommand (Except.ok "this is not JSON") = { action := some "UNKNOWN" } ∧
    (executeAction (interpretUserCommand (Except.ok "this is not JSON")) initialContainers).2 =
      "I'm sorry, I didn't quite understand that. Could you please rephrase?" :=
  malformed_reply_yields_unknown (Except.ok "this is not JSON") initialContainers
    (fun s h => by injection h with h2; rw [← h2]; rfl)

/-- C1 (counterexample): the reply `{"action":"TELEPORT"}` is valid JSON whose
action name is not one of the seven known variants, so under the claim it
should be interpreted as `UNKNOWN` and produce the didn't-understand text.
`JSON.parse(text) as AIAction` performs no validation, however: the unknown
name is returned as-is and the executor's `switch` falls through to its
default response instead of the `UNKNOWN` branch. -/
theorem unknown_action_name_counterexample :
    (jsonParse (strTrim "\x7b\"action\":\"TELEPORT\"\x7d")).isSome = true ∧
    "TELEPORT" ∉ knownActionNames ∧
    interpretUserCommand (Except.ok "\x7b\"action\":\"TELEPORT\"\x7d") =
      { action := some "TELEPORT" } ∧
    interpretUserCommand (Except.ok "\x7b\"action\":\"TELEPORT\"\x7d") ≠
      { action := some "UNKNOWN" } ∧
    (executeAction (interpretUserCommand (Except.ok "\x7b\"action\":\"TELEPORT\"\x7d"))
        initialContainers).2 = "Sorry, I couldn't perform that action." ∧
    (executeAction (interpretUserCommand (Except.ok "\x7b\"action\":\"TELEPORT\"\x7d"))
        initialContainers).2 ≠
      "I'm sorry, I didn't quite understand that. Could you please rephrase?" :=
  ⟨rfl, by decide, rfl, by decide, rfl, by decide⟩

/-- C9: from any store, executing `CREATE_CONTAINER` with items `["X"]` and
then `LIST_ITEMS` with the newly assigned id reports "X" as the container's
sole content. -/
theorem create_then_list_reports_sole_item (cs : List Container) :
    (executeAction
        { action := some "LIST_ITEMS",
          containerNumber := some (if cs.length > 0 then maxId cs + 1 else 1) }
        (executeAction { action := some "CREATE_CONTAINER", items := some ["X"] } cs).1).2 =
      "Container " ++ toString (if cs.length > 0 then maxId cs + 1 else 1) ++
        " contains: X." := by
  obtain ⟨newId, hnew⟩ : ∃ k, (if cs.length > 0 then maxId cs + 1 else 1) = k := ⟨_, rfl⟩
  rw [hnew, exec_create_state (some ["X"]) cs, hnew]
  simp only [Option.getD_some]
  have hid : newId ≠ 0 := by
    rw [← hnew]
    split <;> omega
  have hfindcs : cs.find? (fun c' => c'.id == newId) = none := by
    rw [List.find?_eq_none]
    intro c hc
    have hle := id_le_maxId hc
    have hpos : 0 < cs.length := List.length_pos.mpr (List.ne_nil_of_mem hc)
    rw [if_pos hpos] at hnew
    simp only [beq_iff_eq]
    omega
  have hfind : (cs ++ [({ id := newId, items := ["X"] } : Container)]).find?
      (fun c' => c'.id == newId) = some { id := newId, items := ["X"] } := by
    rw [find?_append_none hfindcs]
    simp
  rw [exec_list_items_found newId { id := newId, items := ["X"] } _ hid hfind]
  have hcont : (if (["X"] : List String).length > 0 then joinComma ["X"] else "It's empty") =
      "X" := rfl
  rw [hcont]
  simp [String.append_assoc]

theorem jsSetDedupAux_sublist : ∀ (l seen : List String),
    List.Sublist (jsSetDedupAux seen l) l := by
  intro l
  induction l with
  | nil => intro seen; exact List.Sublist.refl _
  | cons x xs ih =>
    intro seen
    rw [jsSetDedupAux]
    split
    · exact (ih seen).trans (List.sublist_cons_self x xs)
    · exact List.Sublist.cons₂ x (ih (x :: seen))

theorem jsSetDedup_sublist : ∀ l : List String, List.Sublist (jsSetDedup l) l :=
  fun l => jsSetDedupAux_sublist l []

theorem jsSetDedupAux_eq_self : ∀ (l seen : List String), l.Nodup →
    (∀ x ∈ l, x ∉ seen) → jsSetDedupAux seen l = l := by
  intro l
  induction l with
  | nil => intro seen _ _; rfl
  | cons x xs ih =>
    intro seen hnd hdisj
    rw [jsSetDedupAux, if_neg (hdisj x (List.mem_cons_self x xs))]
    congr 1
    refine ih (x :: seen) (List.nodup_cons.mp hnd).2 ?_
    intro y hy hmem
    rcases List.mem_cons.mp hmem with h1 | h1
    · exact (List.nodup_cons.mp hnd).1 (h1 ▸ hy)
    · exact hdisj y (List.mem_cons_of_mem _ hy) h1

theorem jsSetDedup_eq_self {l : List String} (h : l.Nodup) : jsSetDedup l = l :=
  jsSetDedupAux_eq_self l [] h (fun x _ => List.not_mem_nil x)

theorem jsSetDedupAux_drop_seen : ∀ (extra seen : List String),
    (∀ a ∈ extra, a ∈ seen) → jsSetDedupAux seen extra = [] := by
  intro extra
  induction extra with
  | nil => intro seen _; rfl
  | cons x xs ih =>
    intro seen h
    rw [jsSetDedupAux, if_pos (h x (List.mem_cons_self x xs))]
    exact ih seen (fun a ha => h a (List.mem_cons_of_mem _ ha))

theorem jsSetDedupAux_append_absorb : ∀ (l seen extra : List String),
    (∀ a ∈ extra, a ∈ l ∨ a ∈ seen) →
    jsSetDedupAux seen (l ++ extra) = jsSetDedupAux seen l := by
  intro l
  induction l with
  | nil =>
    intro seen extra h
    rw [List.nil_append, jsSetDedupAux_drop_seen extra seen ?_]
    · rfl
    · intro a ha
      rcases h a ha with h1 | h1
      · exact absurd h1 (List.not_mem_nil a)
      · exact h1
  | cons x xs ih =>
    intro seen extra h
    rw [List.cons_append]
    rw [jsSetDedupAux]
    conv_rhs => rw [jsSetDedupAux]
    split
    · rename_i hxseen
      refine ih seen extra ?_
      intro a ha
      rcases h a ha with h1 | h1
      · rcases List.mem_cons.mp h1 with h2 | h2
        · right; rw [h2]; exact hxseen
        · left; exact h2
      · right; exact h1
    · congr 1
      refine ih (x :: seen) extra ?_
      intro a ha
      rcases h a ha with h1 | h1
      · rcases List.mem_cons.mp h1 with h2 | h2
        · right; rw [h2]; exact List.mem_cons_self x seen
        · left; exact h2
      · right; exact List.mem_cons_of_mem _ h1

theorem jsSetDedup_append_absorb (l extra : List String) (h : ∀ a ∈ extra, a ∈ l) :
    jsSetDedup (l ++ extra) = jsSetDedup l :=
  jsSetDedupAux_append_absorb l [] extra (fun a ha => Or.inl (h a ha))

/-- C3: `UPDATE_ITEMS` with removal terms and no additions rewrites the
targeted container's items to exactly those existing items whose lowercase
form does not contain the lowercase form of any removal term (so an item is
removed precisely when some term matches it case-insensitively by substring
containment), and leaves all other containers unchanged. -/
theorem update_removes_matching_items (cs : List Container) (n : Nat) (terms : List String)
    (hn : n ≠ 0) (hfind : (cs.find? (fun c => c.id == n)).isSome) :
    (executeAction
      { action := some "UPDATE_ITEMS", containerNumber := some n,
        itemsToRemove := some terms } cs).1 =
      cs.map (fun c =>
        if c.id = n then
          { c with items := c.items.filter (fun item => !(removalMatches terms item)) }
        else c) := by
  rw [exec_update_found_state n none (some terms) cs hn hfind]
  refine map_congr_mem ?_
  intro c hc
  by_cases hcid : c.id = n
  · rw [if_pos (by simpa using hcid), if_pos hcid]
    simp only [itemsNonempty, Option.getD_some, Bool.false_eq_true, if_false]
    cases terms with
    | nil => simp [removalMatches]
    | cons t ts => simp
  · rw [if_neg (by simpa using hcid), if_neg hcid]

theorem update_removes_matching_items_witness :
    (([{ id := 2, items := ["Tent Stand", "Camping Gear", "Tent"] }] :
        List Container).find? (fun c => c.id == 2)).isSome = true ∧
    (executeAction
      { action := some "UPDATE_ITEMS", containerNumber := some 2,
        itemsToRemove := some ["tent"] }
      [{ id := 2, items := ["Tent Stand", "Camping Gear", "Tent"] }]).1 =
      [{ id := 2, items := ["Camping Gear"] }] := by
  refine ⟨by decide, ?_⟩
  have h := update_removes_matching_items
    [{ id := 2, items := ["Tent Stand", "Camping Gear", "Tent"] }] 2 ["tent"]
    (by decide) (by decide)
  rw [h]
  decide

/-- C4 (amended): on a container whose item list is duplicate-free, in a store
with duplicate-free ids, `UPDATE_ITEMS` adding only items already present
under exact (case-sensitive) string equality leaves the store — in particular
that item list — unchanged; and the `Set` de-duplication always preserves
first-occurrence order (its result is a subsequence of the combined list). -/
theorem update_add_present_idempotent (cs : List Container) (n : Nat) (c : Container)
    (toAdd : List String) (hn : n ≠ 0)
    (hfind : cs.find? (fun c' => c'.id == n) = some c)
    (hids : (cs.map (fun c' => c'.id)).Nodup)
    (hnodup : c.items.Nodup) (hsub : ∀ a ∈ toAdd, a ∈ c.items) :
    (executeAction
      { action := some "UPDATE_ITEMS", containerNumber := some n,
        itemsToAdd := some toAdd } cs).1 = cs ∧
    (∀ l : List String, List.Sublist (jsSetDedup l) l) := by
  refine ⟨?_, jsSetDedup_sublist⟩
  rw [exec_update_found_state n (some toAdd) none cs hn (by rw [hfind]; rfl)]
  refine map_eq_self_mem ?_
  intro c' hc'
  by_cases hcid : (c'.id == n) = true
  · have hceq : c' = c := by
      have hmem := List.mem_of_find?_eq_some hfind
      have hcn := List.find?_some hfind
      rw [beq_iff_eq] at hcid
      simp only [beq_iff_eq] at hcn
      exact List.inj_on_of_nodup_map hids hc' hmem (by rw [hcid, hcn])
    subst hceq
    rw [if_pos hcid]
    simp only [itemsNonempty, Option.getD_some, Bool.false_eq_true, if_false]
    split
    · rw [jsSetDedup_append_absorb _ _ hsub, jsSetDedup_eq_self hnodup]
    · rfl
  · rw [if_neg hcid]

theorem update_add_present_idempotent_witness :
    (executeAction
      { action := some "UPDATE_ITEMS", containerNumber := some 1,
        itemsToAdd := some ["Skis"] } [{ id := 1, items := ["Skis"] }]).1 =
      [{ id := 1, items := ["Skis"] }] ∧
    (∀ l : List String, List.Sublist (jsSetDedup l) l) :=
  update_add_present_idempotent [{ id := 1, items := ["Skis"] }] 1
    { id := 1, items := ["Skis"] } ["Skis"] (by decide) (by decide) (by decide)
    (by decide) (by decide)

/-- C4 (counterexample): on a container whose item list already holds a
duplicate — constructible, since `CREATE_CONTAINER` stores `action.items`
without de-duplication — adding an item that is already present changes the
item list: the add-time `Set` de-duplication collapses the pre-existing
duplicate, so the add is not idempotent on every container. -/
theorem add_present_item_changes_duplicated_list :
    (executeAction
      { action := some "UPDATE_ITEMS", containerNumber := some 1,
        itemsToAdd := some ["Skis"] } [{ id := 1, items := ["Skis", "Skis"] }]).1 ≠
      [{ id := 1, items := ["Skis", "Skis"] }] ∧
    (executeAction
      { action := some "UPDATE_ITEMS", containerNumber := some 1,
        itemsToAdd := some ["Skis"] } [{ id := 1, items := ["Skis", "Skis"] }]).1 =
      [{ id := 1, items := ["Skis"] }] := by
  constructor <;> decide
